import Mathlib

/-!
Verification of the link-metadata extraction service of the second-brain
backend (src/src-tauri/src/commands.rs, function fetch_link_metadata).

The embedding models an HTML document, as produced by the lenient parser,
as the list of its elements in document order (a depth-first preorder walk
of the parsed tree, which is the order the select iterator of the scraper
library traverses). Each element carries its tag name, its attribute list
(attribute lookup returns the first occurrence, as the HTML parser keeps
only the first occurrence of a duplicated attribute) and the concatenated
text content of its descendants (what the text().collect call of the
source produces for a title element).

The network layer (reqwest client build, send, body read) is modelled as a
single transport outcome of type Except String String: either the body
text of the response, or the error message string that each map_err of the
source produces. The HTML parser is total, so it is modelled as an
arbitrary total function from the body text to a document.
-/

set_option autoImplicit false

namespace SecondBrain

/-- An element of the parsed HTML document: tag name, attributes in source
order, and the concatenated text content of its descendants. -/
structure Element where
  tag : String
  attrs : List (String × String)
  textContent : String
deriving Repr, DecidableEq

/-- Attribute lookup, as the attr method of the scraper library: the value
of the first attribute with the given name, if any. -/
def Element.attr (e : Element) (name : String) : Option String :=
  (e.attrs.find? (fun p => p.1 == name)).map Prod.snd

/-- A document is its list of elements in document order. -/
abbrev Document := List Element

/-- Selector meta[property=og:title] from the source. -/
def ogTitleSel (e : Element) : Bool :=
  e.tag == "meta" && e.attr "property" == some "og:title"

/-- Selector meta[property=og:description] from the source. -/
def ogDescSel (e : Element) : Bool :=
  e.tag == "meta" && e.attr "property" == some "og:description"

/-- Selector meta[property=og:image] from the source. -/
def ogImageSel (e : Element) : Bool :=
  e.tag == "meta" && e.attr "property" == some "og:image"

/-- Selector meta[property=og:site_name] from the source. -/
def ogSiteNameSel (e : Element) : Bool :=
  e.tag == "meta" && e.attr "property" == some "og:site_name"

/-- Selector title from the source. -/
def titleSel (e : Element) : Bool :=
  e.tag == "title"

/-- Selector meta[name=description] from the source. -/
def metaDescSel (e : Element) : Bool :=
  e.tag == "meta" && e.attr "name" == some "description"

/-- document.select(sel).next() of the source: the first element of the
document, in document order, that matches the selector. -/
def selectFirst (sel : Element → Bool) (d : Document) : Option Element :=
  d.find? sel

/-- Title extraction of the source: content attribute of the first
og:title meta, or else the text content of the first title element. -/
def extractTitle (d : Document) : Option String :=
  ((selectFirst ogTitleSel d).bind (fun e => e.attr "content")).orElse
    (fun _ => (selectFirst titleSel d).map Element.textContent)

/-- Description extraction of the source: content attribute of the first
og:description meta, or else the content attribute of the first
meta[name=description]. -/
def extractDescription (d : Document) : Option String :=
  ((selectFirst ogDescSel d).bind (fun e => e.attr "content")).orElse
    (fun _ => (selectFirst metaDescSel d).bind (fun e => e.attr "content"))

/-- Image extraction of the source: content attribute of the first
og:image meta; no fallback. -/
def extractImage (d : Document) : Option String :=
  (selectFirst ogImageSel d).bind (fun e => e.attr "content")

/-- Site-name extraction of the source: content attribute of the first
og:site_name meta; no fallback. -/
def extractSiteName (d : Document) : Option String :=
  (selectFirst ogSiteNameSel d).bind (fun e => e.attr "content")

/-- The LinkMetadata record of the source. -/
structure LinkMetadata where
  title : Option String
  description : Option String
  image : Option String
  site_name : Option String
  url : String
deriving Repr, DecidableEq

/-- fetch_link_metadata of the source. The transport argument is the
combined outcome of client build, send and body read (each failure mapped
to its message string); the parse argument is the total HTML parser. On
transport success the body is parsed and the four fields are extracted,
and the record echoes the input url. -/
def fetch_link_metadata (parse : String → Document)
    (transport : Except String String) (url : String) :
    Except String LinkMetadata :=
  match transport with
  | Except.error e => Except.error e
  | Except.ok html =>
    let document := parse html
    Except.ok
      { title := extractTitle document
        description := extractDescription document
        image := extractImage document
        site_name := extractSiteName document
        url := url }

/-- The four optional fields of the record, used to speak about all field
extractions uniformly. -/
inductive MetaField
  | title
  | description
  | image
  | site_name
deriving Repr, DecidableEq

/-- The ordered selector chain of each field, as laid out in the source. -/
def fieldSelectors : MetaField → List (Element → Bool)
  | MetaField.title => [ogTitleSel, titleSel]
  | MetaField.description => [ogDescSel, metaDescSel]
  | MetaField.image => [ogImageSel]
  | MetaField.site_name => [ogSiteNameSel]

/-- An element is a source tag of a field when it matches one of the
selectors of that field. -/
def matchesField (f : MetaField) (e : Element) : Bool :=
  (fieldSelectors f).any (fun sel => sel e)

/-- The extraction of a given field, as in the source. -/
def extractField : MetaField → Document → Option String
  | MetaField.title => extractTitle
  | MetaField.description => extractDescription
  | MetaField.image => extractImage
  | MetaField.site_name => extractSiteName

/-! ### Helper lemmas -/

/-- Documents agreeing on the matching sublist agree on the first match. -/
theorem selectFirst_congr (sel : Element → Bool) (d₁ d₂ : Document)
    (h : d₁.filter sel = d₂.filter sel) :
    selectFirst sel d₁ = selectFirst sel d₂ := by
  simp only [selectFirst, ← List.filter_head?, h]

/-- The first match of a selector in a split document is the marked
element when nothing before it matches and it matches itself. -/
theorem selectFirst_append (sel : Element → Bool) (pre post : Document)
    (e : Element) (he : sel e = true) (hpre : ∀ x ∈ pre, sel x = false) :
    selectFirst sel (pre ++ e :: post) = some e := by
  induction pre with
  | nil => simp [selectFirst, List.find?_cons_of_pos _ he]
  | cons a pre ih =>
    have ha : sel a = false := hpre a (by simp)
    have hpre' : ∀ x ∈ pre, sel x = false := fun x hx => hpre x (by simp [hx])
    show List.find? sel (a :: (pre ++ e :: post)) = some e
    rw [List.find?_cons_of_neg _ (by simp [ha])]
    exact ih hpre'

/-- Filtering first by a weaker predicate does not change a filter by a
stronger one. -/
theorem filter_filter_of_imp {q sel : Element → Bool} (d : Document)
    (h : ∀ e ∈ d, sel e = true → q e = true) :
    (d.filter q).filter sel = d.filter sel := by
  induction d with
  | nil => rfl
  | cons a d ih =>
    have ih' := ih (fun e he => h e (List.mem_cons_of_mem a he))
    cases hq : q a with
    | true =>
      cases hs : sel a with
      | true => simp [List.filter_cons, hq, hs, ih']
      | false => simp [List.filter_cons, hq, hs, ih']
    | false =>
      have hs : sel a = false := by
        cases hs : sel a with
        | false => rfl
        | true =>
          rw [h a (List.mem_cons_self a d) hs] at hq
          exact absurd hq (by simp)
      simp [List.filter_cons, hq, hs, ih']

/-- Title extraction only depends on the elements matching its two
selectors. -/
theorem extractTitle_congr (d₁ d₂ : Document)
    (h1 : d₁.filter ogTitleSel = d₂.filter ogTitleSel)
    (h2 : d₁.filter titleSel = d₂.filter titleSel) :
    extractTitle d₁ = extractTitle d₂ := by
  simp only [extractTitle, selectFirst_congr _ _ _ h1, selectFirst_congr _ _ _ h2]

/-- Description extraction only depends on the elements matching its two
selectors. -/
theorem extractDescription_congr (d₁ d₂ : Document)
    (h1 : d₁.filter ogDescSel = d₂.filter ogDescSel)
    (h2 : d₁.filter metaDescSel = d₂.filter metaDescSel) :
    extractDescription d₁ = extractDescription d₂ := by
  simp only [extractDescription, selectFirst_congr _ _ _ h1,
    selectFirst_congr _ _ _ h2]

/-- Image extraction only depends on the elements matching its selector. -/
theorem extractImage_congr (d₁ d₂ : Document)
    (h1 : d₁.filter ogImageSel = d₂.filter ogImageSel) :
    extractImage d₁ = extractImage d₂ := by
  simp only [extractImage, selectFirst_congr _ _ _ h1]

/-- Site-name extraction only depends on the elements matching its
selector. -/
theorem extractSiteName_congr (d₁ d₂ : Document)
    (h1 : d₁.filter ogSiteNameSel = d₂.filter ogSiteNameSel) :
    extractSiteName d₁ = extractSiteName d₂ := by
  simp only [extractSiteName, selectFirst_congr _ _ _ h1]

/-! ### Claim theorems -/

/-- Claim C1: for every fetched document the extracted title follows the
two-step fallback chain: it equals the content attribute of the first
og:title meta element when that yields a match, and otherwise equals the
text content of the first title element; in particular the og:title
content takes precedence over a coexisting title element with different
text, and with no og:title meta present a non-empty title element
supplies the title. -/
theorem title_fallback_chain (parse : String → Document)
    (html url : String) (m : LinkMetadata)
    (hm : fetch_link_metadata parse (Except.ok html) url = Except.ok m) :
    (∀ c, (selectFirst ogTitleSel (parse html)).bind (fun e => e.attr "content") = some c →
      m.title = some c) ∧
    ((selectFirst ogTitleSel (parse html)).bind (fun e => e.attr "content") = none →
      m.title = (selectFirst titleSel (parse html)).map Element.textContent) ∧
    (∀ e t c, selectFirst ogTitleSel (parse html) = some e → e.attr "content" = some c →
      selectFirst titleSel (parse html) = some t → m.title = some c) ∧
    (selectFirst ogTitleSel (parse html) = none →
      ∀ t, selectFirst titleSel (parse html) = some t → t.textContent ≠ "" →
        m.title = some t.textContent) := by
  have hmt : m.title = extractTitle (parse html) := by
    simp only [fetch_link_metadata] at hm
    cases hm
    rfl
  refine ⟨?_, ?_, ?_, ?_⟩
  · intro c hc
    rw [hmt]
    simp [extractTitle, hc, Option.orElse]
  · intro hc
    rw [hmt]
    simp [extractTitle, hc, Option.orElse]
  · intro e t c he hc _
    rw [hmt]
    simp [extractTitle, he, hc, Option.orElse]
  · intro hog t ht _
    rw [hmt]
    simp [extractTitle, hog, ht, Option.orElse]

/-- Witness for C1: a document holding an og:title meta with content A and
a title element with text B yields title A through the fetch pipeline. -/
theorem title_fallback_chain_witness :
    ∃ m : LinkMetadata,
      fetch_link_metadata
        (fun _ => [⟨"meta", [("property", "og:title"), ("content", "A")], ""⟩,
                   ⟨"title", [], "B"⟩])
        (Except.ok "body") "u" = Except.ok m ∧ m.title = some "A" := by
  refine ⟨_, rfl, ?_⟩
  exact (title_fallback_chain
      (fun _ => [⟨"meta", [("property", "og:title"), ("content", "A")], ""⟩,
                 ⟨"title", [], "B"⟩])
      "body" "u" _ rfl).2.2.1
    ⟨"meta", [("property", "og:title"), ("content", "A")], ""⟩
    ⟨"title", [], "B"⟩ "A" (by decide) (by decide) (by decide)

/-- Claim C5: the extracted description equals the content attribute of
the first og:description meta when that yields a match, otherwise the
content attribute of the first meta with name description; if neither
yields a match the description is absent. -/
theorem description_fallback_chain (d : Document) :
    (∀ c, (selectFirst ogDescSel d).bind (fun e => e.attr "content") = some c →
      extractDescription d = some c) ∧
    ((selectFirst ogDescSel d).bind (fun e => e.attr "content") = none →
      extractDescription d = (selectFirst metaDescSel d).bind (fun e => e.attr "content")) ∧
    ((selectFirst ogDescSel d).bind (fun e => e.attr "content") = none →
      (selectFirst metaDescSel d).bind (fun e => e.attr "content") = none →
      extractDescription d = none) := by
  refine ⟨?_, ?_, ?_⟩
  · intro c hc
    simp [extractDescription, hc, Option.orElse]
  · intro hc
    simp [extractDescription, hc, Option.orElse]
  · intro hc hc'
    simp [extractDescription, hc, hc', Option.orElse]

/-- Witness for C5: with no og:description meta, the content of the meta
with name description is used. -/
theorem description_fallback_chain_witness :
    extractDescription
      [⟨"meta", [("name", "description"), ("content", "S")], ""⟩] = some "S" :=
  ((description_fallback_chain
      [⟨"meta", [("name", "description"), ("content", "S")], ""⟩]).2.1
    (by decide)).trans (by decide)

/-- Claim C6: the image field is populated only from the content attribute
of the first og:image meta and the site_name field only from the content
attribute of the first og:site_name meta; neither has a fallback, so when
the respective meta is absent the field is absent regardless of any other
markup in the document. -/
theorem image_site_name_no_fallback (d : Document) :
    (selectFirst ogImageSel d = none → extractImage d = none) ∧
    (∀ e c, selectFirst ogImageSel d = some e → e.attr "content" = some c →
      extractImage d = some c) ∧
    (selectFirst ogSiteNameSel d = none → extractSiteName d = none) ∧
    (∀ e c, selectFirst ogSiteNameSel d = some e → e.attr "content" = some c →
      extractSiteName d = some c) := by
  refine ⟨?_, ?_, ?_, ?_⟩
  · intro h
    simp [extractImage, h]
  · intro e c he hc
    simp [extractImage, he, hc]
  · intro h
    simp [extractSiteName, h]
  · intro e c he hc
    simp [extractSiteName, he, hc]

/-- Witness for C6: a document rich in other markup but with no og:image
and no og:site_name meta leaves both fields absent. -/
theorem image_site_name_no_fallback_witness :
    extractImage [⟨"title", [], "T"⟩,
      ⟨"meta", [("name", "description"), ("content", "S")], ""⟩,
      ⟨"img", [("src", "pic.png")], ""⟩] = none ∧
    extractSiteName [⟨"title", [], "T"⟩,
      ⟨"meta", [("name", "description"), ("content", "S")], ""⟩,
      ⟨"img", [("src", "pic.png")], ""⟩] = none :=
  ⟨(image_site_name_no_fallback [⟨"title", [], "T"⟩,
      ⟨"meta", [("name", "description"), ("content", "S")], ""⟩,
      ⟨"img", [("src", "pic.png")], ""⟩]).1 (by decide),
   (image_site_name_no_fallback [⟨"title", [], "T"⟩,
      ⟨"meta", [("name", "description"), ("content", "S")], ""⟩,
      ⟨"img", [("src", "pic.png")], ""⟩]).2.2.1 (by decide)⟩

/-- Claim C3: a document in which no element matches any of the six
selectors still yields a successful result whose four optional fields are
all absent; parsing is total, so any body text yields a successful record,
and an error can arise only from the transport. -/
theorem graceful_absence (parse : String → Document)
    (tr : Except String String) (html url err : String) :
    ((∀ e ∈ parse html, ogTitleSel e = false ∧ titleSel e = false ∧
        ogDescSel e = false ∧ metaDescSel e = false ∧
        ogImageSel e = false ∧ ogSiteNameSel e = false) →
      fetch_link_metadata parse (Except.ok html) url =
        Except.ok { title := none, description := none, image := none,
                    site_name := none, url := url }) ∧
    (∃ m, fetch_link_metadata parse (Except.ok html) url = Except.ok m) ∧
    (fetch_link_metadata parse tr url = Except.error err →
      tr = Except.error err) := by
  refine ⟨?_, ⟨_, rfl⟩, ?_⟩
  · intro h
    have h1 : selectFirst ogTitleSel (parse html) = none :=
      List.find?_eq_none.mpr (fun x hx => by simp [(h x hx).1])
    have h2 : selectFirst titleSel (parse html) = none :=
      List.find?_eq_none.mpr (fun x hx => by simp [(h x hx).2.1])
    have h3 : selectFirst ogDescSel (parse html) = none :=
      List.find?_eq_none.mpr (fun x hx => by simp [(h x hx).2.2.1])
    have h4 : selectFirst metaDescSel (parse html) = none :=
      List.find?_eq_none.mpr (fun x hx => by simp [(h x hx).2.2.2.1])
    have h5 : selectFirst ogImageSel (parse html) = none :=
      List.find?_eq_none.mpr (fun x hx => by simp [(h x hx).2.2.2.2.1])
    have h6 : selectFirst ogSiteNameSel (parse html) = none :=
      List.find?_eq_none.mpr (fun x hx => by simp [(h x hx).2.2.2.2.2])
    simp [fetch_link_metadata, extractTitle, extractDescription, extractImage,
      extractSiteName, h1, h2, h3, h4, h5, h6, Option.orElse]
  · intro h
    cases tr with
    | error e =>
      simp only [fetch_link_metadata] at h
      injection h with h'
      rw [h']
    | ok b =>
      simp [fetch_link_metadata] at h

/-- Witness for C3: a document consisting of one div with text matches no
selector, and the fetch succeeds with all optional fields absent. -/
theorem graceful_absence_witness :
    fetch_link_metadata (fun _ => [⟨"div", [("id", "x")], "hello"⟩])
      (Except.ok "<div id=x>hello</div>") "https://example.com" =
    Except.ok { title := none, description := none, image := none,
                site_name := none, url := "https://example.com" } :=
  (graceful_absence (fun _ => [⟨"div", [("id", "x")], "hello"⟩])
      (Except.error "dns") "<div id=x>hello</div>" "https://example.com"
      "dns").1 (by decide)

/-- Claim C2: whenever fetch_link_metadata succeeds, the url field of the
returned LinkMetadata record equals the input string exactly. -/
theorem url_roundtrip (parse : String → Document)
    (transport : Except String String) (url : String) (m : LinkMetadata)
    (h : fetch_link_metadata parse transport url = Except.ok m) :
    m.url = url := by
  cases transport with
  | error e => simp [fetch_link_metadata] at h
  | ok html =>
    simp only [fetch_link_metadata] at h
    cases h
    rfl

/-- Witness for C2 at a concrete parse function, body and url. -/
theorem url_roundtrip_witness :
    ∃ m : LinkMetadata,
      fetch_link_metadata (fun _ => []) (Except.ok "<html></html>")
        "https://example.com/article" = Except.ok m ∧
      m.url = "https://example.com/article" := by
  refine ⟨_, rfl, ?_⟩
  exact url_roundtrip (fun _ => []) (Except.ok "<html></html>")
    "https://example.com/article" _ rfl

/-- Claim C7: when the transport fails (the request cannot be sent or the
body cannot be read), fetch_link_metadata returns exactly the error
message string and no LinkMetadata record. -/
theorem transport_failure_propagates (parse : String → Document)
    (url err : String) :
    fetch_link_metadata parse (Except.error err) url = Except.error err ∧
    ∀ m : LinkMetadata,
      fetch_link_metadata parse (Except.error err) url ≠ Except.ok m := by
  constructor
  · rfl
  · intro m h
    simp [fetch_link_metadata] at h

/-- Claim C9: for each of title and description separately, a
first-matching meta element that lacks a content attribute counts as no
match: the title extraction proceeds to the title element and the
description extraction to the meta with name description, and in each
case the field is absent only when that remaining fallback also fails. -/
theorem missing_content_falls_through (d : Document) :
    (∀ e, selectFirst ogTitleSel d = some e → e.attr "content" = none →
      extractTitle d = (selectFirst titleSel d).map Element.textContent ∧
      (extractTitle d = none ↔ selectFirst titleSel d = none)) ∧
    (∀ e, selectFirst ogDescSel d = some e → e.attr "content" = none →
      extractDescription d =
        (selectFirst metaDescSel d).bind (fun x => x.attr "content") ∧
      (extractDescription d = none ↔
        (selectFirst metaDescSel d).bind (fun x => x.attr "content") = none)) := by
  constructor
  · intro e he hc
    have h1 : extractTitle d = (selectFirst titleSel d).map Element.textContent := by
      simp [extractTitle, he, hc, Option.orElse]
    refine ⟨h1, ?_⟩
    rw [h1]
    cases selectFirst titleSel d <;> simp
  · intro e he hc
    have h2 : extractDescription d =
        (selectFirst metaDescSel d).bind (fun x => x.attr "content") := by
      simp [extractDescription, he, hc, Option.orElse]
    exact ⟨h2, by rw [h2]⟩

/-- Witness for C9, one document per field: a content-less og:title meta
in a document with no og:description meta at all falls through to the
title element, and a content-less og:description meta in a document with
no og:title meta at all falls through to the meta with name
description. -/
theorem missing_content_falls_through_witness :
    extractTitle [⟨"meta", [("property", "og:title")], ""⟩,
      ⟨"title", [], "T"⟩] = some "T" ∧
    extractDescription [⟨"meta", [("property", "og:description")], ""⟩,
      ⟨"meta", [("name", "description"), ("content", "D")], ""⟩] = some "D" := by
  constructor
  · exact (((missing_content_falls_through
      [⟨"meta", [("property", "og:title")], ""⟩, ⟨"title", [], "T"⟩]).1
      ⟨"meta", [("property", "og:title")], ""⟩ (by decide) (by decide)).1).trans
      (by decide)
  · exact (((missing_content_falls_through
      [⟨"meta", [("property", "og:description")], ""⟩,
       ⟨"meta", [("name", "description"), ("content", "D")], ""⟩]).2
      ⟨"meta", [("property", "og:description")], ""⟩ (by decide)
      (by decide)).1).trans (by decide)

/-- Claim C10: only the first matching element in document order is
consulted by any selector of any chain: with nothing matching in front of
a marked matching element, the first match of the whole document is that
element; concretely for the title chain, the content of the first
og:title meta is extracted no matter what elements follow, so all later
matches are ignored. -/
theorem first_match_wins (sel : Element → Bool)
    (_hsel : sel ∈ [ogTitleSel, ogDescSel, ogImageSel, ogSiteNameSel,
      titleSel, metaDescSel])
    (pre post : Document) (e : Element) (c : String) :
    (sel e = true → (∀ x ∈ pre, sel x = false) →
      selectFirst sel (pre ++ e :: post) = some e) ∧
    (ogTitleSel e = true → e.attr "content" = some c →
      (∀ x ∈ pre, ogTitleSel x = false) →
      extractTitle (pre ++ e :: post) = some c) := by
  constructor
  · exact fun he hpre => selectFirst_append sel pre post e he hpre
  · intro he hc hpre
    have h := selectFirst_append ogTitleSel pre post e he hpre
    simp [extractTitle, h, hc, Option.orElse]

/-- Witness for C10: with two og:title metas carrying different content,
the extracted title is the content of the first. -/
theorem first_match_wins_witness :
    extractTitle
      [⟨"meta", [("property", "og:title"), ("content", "First")], ""⟩,
       ⟨"meta", [("property", "og:title"), ("content", "Second")], ""⟩] =
      some "First" :=
  (first_match_wins ogTitleSel (by simp) []
      [⟨"meta", [("property", "og:title"), ("content", "Second")], ""⟩]
      ⟨"meta", [("property", "og:title"), ("content", "First")], ""⟩
      "First").2 (by decide) (by decide) (by decide)

/-- Counterexample to claim C4 as stated: here the og:title meta matches
with an empty-string content attribute, and a title element with the
non-empty text Fallback follows; by the claim an empty match must not win
and must not stop the later fallback, which would yield Fallback, but the
extraction returns the empty string. -/
theorem empty_match_wins_counterexample :
    extractTitle [⟨"meta", [("property", "og:title"), ("content", "")], ""⟩,
      ⟨"title", [], "Fallback"⟩] = some "" ∧
    extractTitle [⟨"meta", [("property", "og:title"), ("content", "")], ""⟩,
      ⟨"title", [], "Fallback"⟩] ≠ some "Fallback" := by
  decide

/-- Claim C4 amended: for each field the first selector that yields a
match wins, where a meta selector yields a match exactly when the first
matching element carries a content attribute, even one holding the empty
string, and the title selector yields a match exactly when a title
element exists, even with empty text; when a selector yields no match the
later fallbacks are consulted, and the field is absent if and only if no
selector in its chain yields a match. -/
theorem fallback_first_match_chain (d : Document) :
    (∀ c, (selectFirst ogTitleSel d).bind (fun e => e.attr "content") = some c →
      extractTitle d = some c) ∧
    ((selectFirst ogTitleSel d).bind (fun e => e.attr "content") = none →
      extractTitle d = (selectFirst titleSel d).map Element.textContent) ∧
    (extractTitle d = none ↔
      ((selectFirst ogTitleSel d).bind (fun e => e.attr "content") = none ∧
       selectFirst titleSel d = none)) ∧
    (∀ c, (selectFirst ogDescSel d).bind (fun e => e.attr "content") = some c →
      extractDescription d = some c) ∧
    ((selectFirst ogDescSel d).bind (fun e => e.attr "content") = none →
      extractDescription d =
        (selectFirst metaDescSel d).bind (fun e => e.attr "content")) ∧
    (extractDescription d = none ↔
      ((selectFirst ogDescSel d).bind (fun e => e.attr "content") = none ∧
       (selectFirst metaDescSel d).bind (fun e => e.attr "content") = none)) ∧
    (extractImage d = none ↔
      (selectFirst ogImageSel d).bind (fun e => e.attr "content") = none) ∧
    (extractSiteName d = none ↔
      (selectFirst ogSiteNameSel d).bind (fun e => e.attr "content") = none) := by
  refine ⟨?_, ?_, ?_, ?_, ?_, ?_, Iff.rfl, Iff.rfl⟩
  · intro c hc
    simp [extractTitle, hc, Option.orElse]
  · intro hc
    simp [extractTitle, hc, Option.orElse]
  · cases hog : (selectFirst ogTitleSel d).bind (fun e => e.attr "content") with
    | some c => simp [extractTitle, hog, Option.orElse]
    | none =>
      cases ht : selectFirst titleSel d <;>
        simp [extractTitle, hog, ht, Option.orElse]
  · intro c hc
    simp [extractDescription, hc, Option.orElse]
  · intro hc
    simp [extractDescription, hc, Option.orElse]
  · cases hog : (selectFirst ogDescSel d).bind (fun e => e.attr "content") with
    | some c => simp [extractDescription, hog, Option.orElse]
    | none =>
      simp [extractDescription, hog, Option.orElse]

/-- Witness for the amended C4: the empty-string og:title content wins
over the following non-empty title element. -/
theorem fallback_first_match_chain_witness :
    extractTitle [⟨"meta", [("property", "og:title"), ("content", "")], ""⟩,
      ⟨"title", [], "Fallback"⟩] = some "" :=
  (fallback_first_match_chain
      [⟨"meta", [("property", "og:title"), ("content", "")], ""⟩,
       ⟨"title", [], "Fallback"⟩]).1 "" (by decide)

/-- Counterexample to claim C8 as stated: the two documents below differ
only in the presence of one source tag of the image field, an element
matching the og:image selector, yet their description extractions differ,
because that single meta also carries name description and so doubles as
a source tag of the description field. -/
theorem field_independence_counterexample :
    matchesField MetaField.image
      ⟨"meta", [("property", "og:image"), ("name", "description"),
        ("content", "X")], ""⟩ = true ∧
    List.filter (fun e => ! matchesField MetaField.image e)
      [⟨"meta", [("property", "og:image"), ("name", "description"),
        ("content", "X")], ""⟩] =
      List.filter (fun e => ! matchesField MetaField.image e) [] ∧
    extractField MetaField.description
      [⟨"meta", [("property", "og:image"), ("name", "description"),
        ("content", "X")], ""⟩] = some "X" ∧
    extractField MetaField.description ([] : Document) = none := by
  decide

/-- Claim C8 amended: two documents that differ only in the source tags
of one field agree on the extraction of every other field, provided those
differing tags are source tags of that field alone; the proviso is forced
because one meta element can match the selectors of two fields at once,
as the counterexample shows. -/
theorem field_independence (F G : MetaField) (d₁ d₂ : Document)
    (hdiff : d₁.filter (fun e => ! matchesField F e) =
      d₂.filter (fun e => ! matchesField F e))
    (hex₁ : ∀ e ∈ d₁, matchesField F e = true → matchesField G e = false)
    (hex₂ : ∀ e ∈ d₂, matchesField F e = true → matchesField G e = false) :
    extractField G d₁ = extractField G d₂ := by
  have key : ∀ sel ∈ fieldSelectors G, d₁.filter sel = d₂.filter sel := by
    intro sel hsel
    have imp : ∀ (d : Document),
        (∀ e ∈ d, matchesField F e = true → matchesField G e = false) →
        ∀ e ∈ d, sel e = true → (! matchesField F e) = true := by
      intro d hex e he hse
      cases hF : matchesField F e with
      | false => rfl
      | true =>
        have hG : matchesField G e = false := hex e he hF
        have hG' : matchesField G e = true :=
          List.any_eq_true.mpr ⟨sel, hsel, hse⟩
        rw [hG] at hG'
        exact absurd hG' (by simp)
    calc d₁.filter sel
        = (d₁.filter (fun e => ! matchesField F e)).filter sel :=
          (filter_filter_of_imp d₁ (imp d₁ hex₁)).symm
      _ = (d₂.filter (fun e => ! matchesField F e)).filter sel := by rw [hdiff]
      _ = d₂.filter sel := filter_filter_of_imp d₂ (imp d₂ hex₂)
  cases G with
  | title =>
    exact extractTitle_congr d₁ d₂
      (key ogTitleSel (by simp [fieldSelectors]))
      (key titleSel (by simp [fieldSelectors]))
  | description =>
    exact extractDescription_congr d₁ d₂
      (key ogDescSel (by simp [fieldSelectors]))
      (key metaDescSel (by simp [fieldSelectors]))
  | image =>
    exact extractImage_congr d₁ d₂ (key ogImageSel (by simp [fieldSelectors]))
  | site_name =>
    exact extractSiteName_congr d₁ d₂
      (key ogSiteNameSel (by simp [fieldSelectors]))

/-- Witness for the amended C8: removing a pure og:image tag leaves the
title extraction unchanged. -/
theorem field_independence_witness :
    extractField MetaField.title
      [⟨"meta", [("property", "og:image"), ("content", "I")], ""⟩,
       ⟨"title", [], "T"⟩] =
    extractField MetaField.title [⟨"title", [], "T"⟩] :=
  field_independence MetaField.image MetaField.title
    [⟨"meta", [("property", "og:image"), ("content", "I")], ""⟩,
     ⟨"title", [], "T"⟩]
    [⟨"title", [], "T"⟩] (by decide) (by decide) (by decide)

end SecondBrain
